import Mathlib

/-!
Verification of the ABCI application layer of the aleo_lambda_blockchain
repository (`src/blockchain/application.rs`, `src/lib/transaction.rs`).

The application orchestrator (`SnarkVMApp`) is embedded shallowly: each ABCI
hook becomes a pure Lean function over an explicit `AppState`.  The collaborator
components whose sources are not part of the snapshot (the record store, the
program store, the validator set, the snarkvm `vm` wrapper and
`Transaction::verify`) are modelled from the specification's component
contracts; their definitions say so in their doc comments.

Conventions:
* machine integers are `Nat`/`Int` with explicit `% 2^64` where a Rust cast
  truncates;
* Rust `Result` becomes `Except String`;
* a Rust `panic!`/`expect`/`unwrap` that aborts the process is modelled by an
  `Option` result of the hook, `none` meaning the process aborted;
* wire bytes for a transaction are abstracted by their decoding outcome:
  `Option Transaction`, `none` standing for bytes that do not deserialize.
-/

/-- A transition output, as far as `stake_updates` inspects it
(`vm::u64_from_output` / `vm::address_from_output`).  Modelled from the spec:
the `vm` module is not part of the source snapshot; outputs are opaque values
from which a u64 or an aleo address can sometimes be extracted. -/
inductive VmOutput where
  | u64Out (n : Nat) : VmOutput
  | addressOut (a : String) : VmOutput
  | otherOut : VmOutput
deriving Repr, DecidableEq

/-- One function invocation inside a transaction (`vm::Transition`).  Modelled
from the spec §3: program id, function name, serial numbers of consumed
records, output records `(commitment, ciphertext)`, a signed (i64) fee delta,
and the raw outputs used by `stake_updates`.  The proof payload is opaque and
handled by the proof-engine parameter. -/
structure Transition where
  program_id : String
  function_name : String
  serial_numbers : List Nat
  output_records : List (Nat × Nat)
  fee : Int
  outputs : List VmOutput
deriving Repr, DecidableEq

/-- A deployed program; only its id is observable to the orchestrator
(`program.id()`). -/
structure Program where
  id : String
deriving Repr, DecidableEq

/-- `lib::transaction::Transaction` (src/lib/transaction.rs).  Verifying-key
maps are opaque (`Nat`). -/
inductive Transaction where
  | Deployment (id : String) (program : Program) (verifying_keys : Nat)
      (fee : Option Transition)
  | Execution (id : String) (transitions : List Transition)
      (validator : Option String)
deriving Repr, DecidableEq

/-- `Transaction::id`. -/
def Transaction.id : Transaction → String
  | .Deployment i _ _ _ => i
  | .Execution i _ _ => i

/-- `Transaction::transitions` (private helper): the fee transition of a
deployment, if any, or the transitions of an execution. -/
def Transaction.transitions : Transaction → List Transition
  | .Deployment _ _ _ (some t) => [t]
  | .Deployment _ _ _ none => []
  | .Execution _ ts _ => ts

/-- `Transaction::record_serial_numbers`: serial numbers of all input records
across the transaction's transitions. -/
def Transaction.record_serial_numbers (tx : Transaction) : List Nat :=
  (tx.transitions.map Transition.serial_numbers).flatten

/-- `Transaction::output_records`: output `(commitment, ciphertext)` pairs of
all transitions. -/
def Transaction.output_records (tx : Transaction) : List (Nat × Nat) :=
  (tx.transitions.map Transition.output_records).flatten

/-- `Transaction::fees` (src/lib/transaction.rs:164-173): for a deployment the
fee of the fee transition (0 when absent); for an execution the signed sum of
all transition fees. -/
def Transaction.fees : Transaction → Int
  | .Deployment _ _ _ fee => (fee.map Transition.fee).getD 0
  | .Execution _ ts _ => ts.foldl (fun acc t => acc + t.fee) 0

/-- The Rust cast `x as u64` on an `i64` value: truncation to 64 bits. -/
def u64OfI64 (n : Int) : Nat := (n.emod (2 ^ 64)).toNat

/-- The Rust cast `n as i64` on a `u64` value: two's-complement wrap. -/
def i64OfU64 (n : Nat) : Int :=
  let m : Nat := n % 2 ^ 64
  if m < 2 ^ 63 then (m : Int) else (m : Int) - 2 ^ 64

/-- `transaction.fees() as u64`, the amount handed to the validator set's fee
pot by `update_validators` (application.rs:372). -/
def Transaction.feesAsU64 (tx : Transaction) : Nat := u64OfI64 tx.fees

/-- `validator::Stake`.  Modelled from the spec §4.4: a stake update carries
the consensus validator address, the owner's aleo address and a signed
amount. -/
structure Stake where
  validator : String
  owner : String
  amount : Int
deriving Repr, DecidableEq

/-- `validator::Stake::new`.  Modelled from the spec: plain construction of the
triple (the constructor's source is not in the snapshot). -/
def Stake.new (v : String) (owner : String) (amount : Int) : Except String Stake :=
  .ok { validator := v, owner := owner, amount := amount }

/-- `transition.outputs().get(index).ok_or_else(...)` inside `stake_updates`. -/
def extractOutput (t : Transition) (i : Nat) : Except String VmOutput :=
  match t.outputs.get? i with
  | some o => .ok o
  | none => .error "couldn't find staking output in transition"

/-- `vm::u64_from_output`.  Modelled from the spec: extraction of a u64 value
from a transition output, failing on other output shapes. -/
def u64_from_output : VmOutput → Except String Nat
  | .u64Out n => .ok (n % 2 ^ 64)
  | _ => .error "output does not hold a u64"

/-- `vm::address_from_output`.  Modelled from the spec: extraction of an aleo
address from a transition output. -/
def address_from_output : VmOutput → Except String String
  | .addressOut a => .ok a
  | _ => .error "output does not hold an address"

/-- The body of the `for transition in transitions` loop of
`Transaction::stake_updates` (src/lib/transaction.rs:186-205): a stake update
from one transition of a staking execution, `none` when the transition is not
a `credits` stake/unstake call. -/
def stakeOfTransition (v : String) (t : Transition) : Except String (Option Stake) :=
  if t.program_id == "credits" then
    match t.function_name with
    | "stake" => do
        let o2 ← extractOutput t 2
        let n ← u64_from_output o2
        let o3 ← extractOutput t 3
        let a ← address_from_output o3
        let s ← Stake.new v a (i64OfU64 n)
        .ok (some s)
    | "unstake" => do
        let o2 ← extractOutput t 2
        let n ← u64_from_output o2
        let o3 ← extractOutput t 3
        let a ← address_from_output o3
        let s ← Stake.new v a (-(i64OfU64 n))
        .ok (some s)
    | _ => .ok none
  else .ok none

/-- The transition loop of `Transaction::stake_updates`, pushing the updates in
transition order and propagating the first error. -/
def stakeUpdatesGo (v : String) : List Transition → Except String (List Stake)
  | [] => .ok []
  | t :: ts =>
    match stakeOfTransition v t with
    | .error e => .error e
    | .ok o =>
      match stakeUpdatesGo v ts with
      | .error e => .error e
      | .ok rest => .ok (match o with | some s => s :: rest | none => rest)

/-- `Transaction::stake_updates` (src/lib/transaction.rs:178-208): non-empty
only for an execution carrying a validator pub key. -/
def Transaction.stake_updates : Transaction → Except String (List Stake)
  | .Execution _ transitions (some v) => stakeUpdatesGo v transitions
  | _ => .ok []

/-- The record store (`crate::record_store::RecordStore`).  Modelled from the
spec §4.2, the source file being outside the snapshot: committed records keyed
by commitment, the committed-spent serial numbers, the serial numbers of
records the store holds (the serial-number → commitment index), plus the two
staging sets `pending-add` and `pending-spend`. -/
structure RecordStore where
  committedRecords : List (Nat × Nat)
  spentSerials : List Nat
  knownSerials : List Nat
  pendingAdd : List (Nat × Nat)
  pendingSpend : List Nat
deriving Repr, DecidableEq

/-- Commitments present in committed state. -/
def RecordStore.committedCommitments (rs : RecordStore) : List Nat :=
  rs.committedRecords.map Prod.fst

/-- Commitments present in the pending-add staging set. -/
def RecordStore.pendingCommitments (rs : RecordStore) : List Nat :=
  rs.pendingAdd.map Prod.fst

/-- `RecordStore::is_unspent`.  Modelled from the spec §4.2: true iff the
record exists, is not committed-spent, and is not in pending-spend. -/
def RecordStore.is_unspent (rs : RecordStore) (sn : Nat) : Bool :=
  decide (sn ∈ rs.knownSerials ∧ sn ∉ rs.spentSerials ∧ sn ∉ rs.pendingSpend)

/-- `RecordStore::spend`.  Modelled from the spec §4.2: fails if the record is
unknown, already committed-spent, or already in pending-spend; otherwise stages
the serial number as a pending spend. -/
def RecordStore.spend (rs : RecordStore) (sn : Nat) : Except String RecordStore :=
  if rs.is_unspent sn then
    .ok { rs with pendingSpend := rs.pendingSpend ++ [sn] }
  else
    .error ("input record serial number " ++ toString sn ++ " cannot be spent")

/-- `RecordStore::add`.  Modelled from the spec §4.2: fails if the commitment
is already present in committed state or in pending-add; otherwise stages the
record as a pending addition. -/
def RecordStore.add (rs : RecordStore) (c r : Nat) : Except String RecordStore :=
  if c ∈ rs.committedCommitments ∨ c ∈ rs.pendingCommitments then
    .error ("record commitment " ++ toString c ++ " already exists")
  else
    .ok { rs with pendingAdd := rs.pendingAdd ++ [(c, r)] }

/-- `RecordStore::commit`.  Modelled from the spec §4.2: atomically promotes
pending spends and pending adds and clears the staging; persistence failure
(an infrastructure event, passed in as `ok = false`) surfaces as an error and
leaves the staging intact. -/
def RecordStore.commit (ok : Bool) (rs : RecordStore) : Except String RecordStore :=
  if ok then
    .ok { committedRecords := rs.committedRecords ++ rs.pendingAdd
          spentSerials := rs.spentSerials ++ rs.pendingSpend
          knownSerials := rs.knownSerials
          pendingAdd := []
          pendingSpend := [] }
  else .error "storage failure while committing the record store"

/-- The program store (`crate::program_store::ProgramStore`).  Modelled from
the spec §4.3: a persistent map from program id to (program, verifying keys);
writes are immediate, no staging. -/
structure ProgramStore where
  entries : List (String × Program × Nat)
deriving Repr, DecidableEq

/-- `ProgramStore::exists`. -/
def ProgramStore.existsProgram (ps : ProgramStore) (pid : String) : Bool :=
  ps.entries.any (fun e => e.1 == pid)

/-- `ProgramStore::get`. -/
def ProgramStore.get (ps : ProgramStore) (pid : String) : Option (Program × Nat) :=
  (ps.entries.find? (fun e => e.1 == pid)).map Prod.snd

/-- `ProgramStore::add`.  Modelled from the spec §4.3: fails if the id
exists. -/
def ProgramStore.add (ps : ProgramStore) (pid : String) (prog : Program) (vk : Nat) :
    Except String ProgramStore :=
  if ps.existsProgram pid then .error ("program " ++ pid ++ " already exists")
  else .ok { entries := ps.entries ++ [(pid, prog, vk)] }

/-- The validator set (`crate::validator_set::ValidatorSet`).  Modelled from
the spec §3/§4.4: current powers, the queue of pending stake updates, the
accumulated fee pot (u64), the current block's proposer, the previous block's
voters with their powers, and the block height. -/
structure ValidatorSet where
  power : List (String × Int)
  pendingStakes : List Stake
  fee_pot : Nat
  proposer : List Nat
  voters : List (List Nat × Nat)
  height : Nat
deriving Repr, DecidableEq

/-- `ValidatorSet::collect`.  Modelled from the spec §4.4: adds a u64 amount to
the fee pot (u64 arithmetic). -/
def ValidatorSet.collect (vs : ValidatorSet) (amount : Nat) : ValidatorSet :=
  { vs with fee_pot := (vs.fee_pot + amount) % 2 ^ 64 }

/-- `ValidatorSet::apply`.  Modelled from the spec §4.4: queues a pending stake
delta for the named validator. -/
def ValidatorSet.apply (vs : ValidatorSet) (s : Stake) : ValidatorSet :=
  { vs with pendingStakes := vs.pendingStakes ++ [s] }

/-- Sum of the pending deltas already queued for one validator. -/
def ValidatorSet.pendingDelta (vs : ValidatorSet) (v : String) : Int :=
  (vs.pendingStakes.filter (fun s => s.validator == v)).foldl
    (fun acc s => acc + s.amount) 0

/-- `ValidatorSet::validate`.  Modelled from the spec §4.4: a stake is always
admissible; an unstake is rejected for an unknown validator and when it would
drive the validator's current-plus-pending power below zero. -/
def ValidatorSet.validate (vs : ValidatorSet) (s : Stake) : Except String Unit :=
  if 0 ≤ s.amount then .ok ()
  else
    match vs.power.find? (fun p => p.1 == s.validator) with
    | none => .error ("unknown validator " ++ s.validator)
    | some p =>
      if p.2 + vs.pendingDelta s.validator + s.amount < 0 then
        .error "unstake would drive validator power below zero"
      else .ok ()

/-- `ValidatorSet::begin_block`.  Modelled from the spec §4.4: records the
proposer of the opening block, the previous block's voter power map and the
height. -/
def ValidatorSet.begin_block (vs : ValidatorSet) (proposer : List Nat)
    (votes : List (List Nat × Nat)) (h : Nat) : ValidatorSet :=
  { vs with proposer := proposer, voters := votes, height := h }

/-- Fixed coinbase minted per block.  Modelled from the spec §4.4, which fixes
only that the amount is a constant. -/
def coinbase : Nat := 100

/-- `ValidatorSet::block_rewards`.  Modelled from the spec §4.4: produces
freshly minted credit records out of the fee pot plus the coinbase and resets
the per-block accounting.  The spec leaves the exact distribution policy open
(any deterministic policy); the model mints a single record tied to the block
height.  No verified claim depends on the distribution. -/
def ValidatorSet.block_rewards (vs : ValidatorSet) :
    List (Nat × Nat) × ValidatorSet :=
  ([(2 ^ 32 * vs.height + 1, vs.fee_pot + coinbase)],
   { vs with fee_pot := 0, voters := [] })

/-- The deterministic verifiers the orchestrator delegates to: `vm`'s
deployment/execution verification and `Transaction::verify`, none of which are
under the snapshot's src/.  Modelled from the spec §4.1: pure, deterministic,
side-effect free; errors are definitive rejection reasons.  The whole
development is parametric in this record. -/
structure ProofEngine where
  verify_transaction : Transaction → Except String Unit
  verify_deployment : Program → Nat → Except String Unit
  verify_execution : Transition → Nat → Except String Unit

/-- The application state owned by `SnarkVMApp` plus the persisted height. -/
structure AppState where
  records : RecordStore
  programs : ProgramStore
  validators : ValidatorSet
  height : Int
deriving Repr, DecidableEq

/-- `SnarkVMApp::check_no_duplicate_records` helper: the first serial number
whose occurrence is the second of its value (itertools `duplicates().next()`),
if any. -/
def firstDup (seen : List Nat) : List Nat → Option Nat
  | [] => none
  | x :: xs => if x ∈ seen then some x else firstDup (x :: seen) xs

/-- `SnarkVMApp::check_no_duplicate_records` (application.rs:319-329). -/
def check_no_duplicate_records (tx : Transaction) : Except String Unit :=
  match firstDup [] tx.record_serial_numbers with
  | some sn =>
    .error ("record with serial number " ++ toString sn ++ " in transaction "
      ++ tx.id ++ " is duplicate")
  | none => .ok ()

/-- Rust's `Result::unwrap_or` on the record store's fallible `is_unspent`
lookup. -/
def exceptUnwrapOr (r : Except String Bool) (d : Bool) : Bool :=
  match r with
  | .ok b => b
  | .error _ => d

/-- The predicate of the `find` in `check_inputs_are_unspent`
(application.rs:337): `!is_unspent(sn).unwrap_or(true)` — a lookup error makes
the predicate false, i.e. the serial number is treated as unspent. -/
def spentPred (lookup : Nat → Except String Bool) (sn : Nat) : Bool :=
  !(exceptUnwrapOr (lookup sn) true)

/-- `SnarkVMApp::check_inputs_are_unspent` (application.rs:333-345), generic in
the store's fallible `is_unspent` lookup. -/
def check_inputs_are_unspent_with (lookup : Nat → Except String Bool)
    (tx : Transaction) : Except String Unit :=
  match tx.record_serial_numbers.find? (spentPred lookup) with
  | some sn =>
    .error ("input record serial number " ++ toString sn
      ++ " is unknown or already spent")
  | none => .ok ()

/-- `SnarkVMApp::check_inputs_are_unspent` instantiated with the model record
store (whose pure lookup never errors). -/
def check_inputs_are_unspent (rs : RecordStore) (tx : Transaction) :
    Except String Unit :=
  check_inputs_are_unspent_with (fun sn => .ok (rs.is_unspent sn)) tx

/-- `SnarkVMApp::verify_transition` (application.rs:428-440): fetch the
program's verifying keys and verify the transition, failing when the program
is unknown. -/
def verify_transition (pe : ProofEngine) (ps : ProgramStore) (t : Transition) :
    Except String Unit :=
  match ps.get t.program_id with
  | some pk => pe.verify_execution t pk.2
  | none => .error ("Program " ++ t.program_id ++ " does not exist")

/-- The `for update in transaction.stake_updates()?` loop of
`validate_transaction` for executions. -/
def validateStakes (vs : ValidatorSet) : List Stake → Except String Unit
  | [] => .ok ()
  | u :: us =>
    match vs.validate u with
    | .error e => .error e
    | .ok _ => validateStakes vs us

/-- The `for transition in transitions` verification loop of
`validate_transaction`. -/
def verifyTransitions (pe : ProofEngine) (ps : ProgramStore) :
    List Transition → Except String Unit
  | [] => .ok ()
  | t :: ts =>
    match verify_transition pe ps t with
    | .error e => .error e
    | .ok _ => verifyTransitions pe ps ts

/-- `SnarkVMApp::validate_transaction` (application.rs:380-425). -/
def validate_transaction (pe : ProofEngine) (st : AppState) (tx : Transaction) :
    Except String Unit :=
  match pe.verify_transaction tx with
  | .error e => .error e
  | .ok _ =>
    match tx with
    | .Deployment _ program verifying_keys fee =>
      if st.programs.existsProgram program.id then
        .error ("Program already exists: " ++ program.id)
      else
        match (match fee with
               | some t => verify_transition pe st.programs t
               | none => .ok ()) with
        | .error e => .error e
        | .ok _ => pe.verify_deployment program verifying_keys
    | .Execution i transitions v =>
      if transitions.isEmpty then
        .error "There are no transitions in the execution"
      else
        match Transaction.stake_updates (.Execution i transitions v) with
        | .error e => .error e
        | .ok updates =>
          match validateStakes st.validators updates with
          | .error e => .error e
          | .ok _ => verifyTransitions pe st.programs transitions

/-- `SnarkVMApp::update_validators` (application.rs:370-378): collect the fee
total cast to u64 into the fee pot, then queue the stake updates; the fee is
collected even when `stake_updates` fails. -/
def update_validators (vs : ValidatorSet) (tx : Transaction) :
    ValidatorSet × Option String :=
  let vs1 := vs.collect tx.feesAsU64
  match tx.stake_updates with
  | .ok us => (us.foldl ValidatorSet.apply vs1, none)
  | .error e => (vs1, some e)

/-- `SnarkVMApp::spend_input_records` (application.rs:349-356): spend the
serial numbers in order, stopping at the first failure and keeping the spends
already staged. -/
def spendAll : List Nat → RecordStore → RecordStore × Option String
  | [], rs => (rs, none)
  | sn :: sns, rs =>
    match rs.spend sn with
    | .ok rs1 => spendAll sns rs1
    | .error e => (rs, some e)

/-- `SnarkVMApp::add_output_records` (application.rs:359-366): add the output
records in order, stopping at the first failure and keeping the additions
already staged. -/
def addAll : List (Nat × Nat) → RecordStore → RecordStore × Option String
  | [], rs => (rs, none)
  | cr :: crs, rs =>
    match rs.add cr.1 cr.2 with
    | .ok rs1 => addAll crs rs1
    | .error e => (rs, some e)

/-- `SnarkVMApp::store_program` (application.rs:442-452): store the program of
a deployment; a no-op for executions. -/
def store_program (ps : ProgramStore) : Transaction → ProgramStore × Option String
  | .Deployment _ program verifying_keys _ =>
    match ps.add program.id program verifying_keys with
    | .ok ps1 => (ps1, none)
    | .error e => (ps, some e)
  | .Execution _ _ _ => (ps, none)

/-- The check-tx response: `code`, the `log`/`info` message (identical in the
source), and the mempool priority. -/
structure CheckResponse where
  code : Nat
  log : String
  priority : Int
deriving Repr, DecidableEq

/-- The deliver-tx response: `code`, the `log`/`info` message, and the emitted
index events (the `tx_id` attribute values). -/
structure DeliverResponse where
  code : Nat
  log : String
  events : List String
deriving Repr, DecidableEq

/-- The validation pipeline shared by `check_tx` and `deliver_tx`
(application.rs:122-125 and 208-211): duplicate check, unspent check,
`validate_transaction`, in that order. -/
def validations (pe : ProofEngine) (st : AppState) (tx : Transaction) :
    Except String Unit :=
  match check_no_duplicate_records tx with
  | .error e => .error e
  | .ok _ =>
    match check_inputs_are_unspent st.records tx with
    | .error e => .error e
    | .ok _ => validate_transaction pe st tx

/-- `SnarkVMApp::check_tx` (application.rs:117-145).  The request's bytes are
abstracted by their decoding outcome; `bincode::deserialize(..).unwrap()`
aborts the process on undecodable bytes, modelled by `none`. -/
def check_tx (pe : ProofEngine) (st : AppState) (req : Option Transaction) :
    Option CheckResponse :=
  match req with
  | none => none
  | some tx =>
    match validations pe st tx with
    | .error e =>
      some { code := 1, log := "Could not verify transaction: " ++ e, priority := 0 }
    | .ok _ => some { code := 0, log := "", priority := tx.fees }

/-- The rejection response of `deliver_tx`. -/
def deliverReject (e : String) : DeliverResponse :=
  { code := 1, log := "Error delivering transaction: " ++ e, events := [] }

/-- The success response of `deliver_tx`, carrying the `tx_id` index event. -/
def deliverAccept (tx : Transaction) : DeliverResponse :=
  { code := 0, log := "", events := [tx.id] }

/-- `SnarkVMApp::deliver_tx` (application.rs:198-241).  Mirrors the source's
combinator chain, including the `.map` at line 212 that discards the result of
`update_validators` while keeping its state effects, and the absence of any
rollback: state mutated before a failing step stays mutated.  `none` models
the process abort of the deserialization `unwrap`. -/
def deliver_tx (pe : ProofEngine) (st : AppState) (req : Option Transaction) :
    Option (AppState × DeliverResponse) :=
  match req with
  | none => none
  | some tx =>
    match check_no_duplicate_records tx with
    | .error e => some (st, deliverReject e)
    | .ok _ =>
      match check_inputs_are_unspent st.records tx with
      | .error e => some (st, deliverReject e)
      | .ok _ =>
        match validate_transaction pe st tx with
        | .error e => some (st, deliverReject e)
        | .ok _ =>
          match spendAll tx.record_serial_numbers st.records with
          | (rs1, some e) =>
            some ({ st with
                    validators := (update_validators st.validators tx).1
                    records := rs1 }, deliverReject e)
          | (rs1, none) =>
            match addAll tx.output_records rs1 with
            | (rs2, some e) =>
              some ({ st with
                      validators := (update_validators st.validators tx).1
                      records := rs2 }, deliverReject e)
            | (rs2, none) =>
              match store_program st.programs tx with
              | (ps1, some e) =>
                some ({ st with
                        validators := (update_validators st.validators tx).1
                        records := rs2
                        programs := ps1 }, deliverReject e)
              | (ps1, none) =>
                some ({ st with
                        validators := (update_validators st.validators tx).1
                        records := rs2
                        programs := ps1 }, deliverAccept tx)

/-- One step of the deliver pipeline, spec side: it yields the state after its
(possibly partial) effects and an error when it fails. -/
def DeliverStep := AppState → AppState × Option String

/-- Run steps in order, stopping at the first failing step and keeping all
effects staged so far — the spec's description of `deliver_tx` (§4.5): strict
ordering, stop on first failure, no rollback. -/
def runSteps : List DeliverStep → AppState → AppState × Option String
  | [], st => (st, none)
  | f :: fs, st =>
    match f st with
    | (st1, none) => runSteps fs st1
    | (st1, some e) => (st1, some e)

/-- Error of an `Except` as an `Option`. -/
def errOpt : Except String Unit → Option String
  | .ok _ => none
  | .error e => some e

/-- The seven deliver steps in the spec's order: duplicate check, unspent
check, `validate_transaction`, `update_validators`, spend inputs, add outputs,
store program. -/
def deliverSteps (pe : ProofEngine) (tx : Transaction) : List DeliverStep :=
  [ fun st => (st, errOpt (check_no_duplicate_records tx)),
    fun st => (st, errOpt (check_inputs_are_unspent st.records tx)),
    fun st => (st, errOpt (validate_transaction pe st tx)),
    fun st =>
      let vsr := update_validators st.validators tx
      ({ st with validators := vsr.1 }, vsr.2),
    fun st =>
      let rr := spendAll tx.record_serial_numbers st.records
      ({ st with records := rr.1 }, rr.2),
    fun st =>
      let rr := addAll tx.output_records st.records
      ({ st with records := rr.1 }, rr.2),
    fun st =>
      let pr := store_program st.programs tx
      ({ st with programs := pr.1 }, pr.2) ]

/-- The spec's account of `deliver_tx` (§4.5): run the seven steps in order,
stop at the first failure surfacing its error as a code-1 rejection, keep all
effects staged before the failure, and emit the `tx_id` index event on
success. -/
def deliverTxSpec (pe : ProofEngine) (st : AppState) (tx : Transaction) :
    AppState × DeliverResponse :=
  match runSteps (deliverSteps pe tx) st with
  | (st1, some e) => (st1, deliverReject e)
  | (st1, none) => (st1, deliverAccept tx)

/-- `HeightFile`: the persisted block height, carried in `AppState.height`;
`increment` never fails when the height file is healthy, which the model
assumes (claims about height-file corruption are out of scope). -/
def heightIncrement (h : Int) : Int := h + 1

/-- The commit response (`ResponseCommit`). -/
structure CommitResponse where
  data : List Nat
  retain_height : Int
deriving Repr, DecidableEq

/-- `SnarkVMApp::commit` (application.rs:269-303).  `rsCommitOk` is the
infrastructure outcome of the record store's persistence.  A failing record
store commit is logged and the hook continues: the height is incremented, the
reward records are staged and the validator set accounting is reset
regardless. -/
def commit (rsCommitOk : Bool) (st : AppState) : AppState × CommitResponse :=
  let records1 :=
    match RecordStore.commit rsCommitOk st.records with
    | .ok rs => rs
    | .error _ => st.records
  let height1 := heightIncrement st.height
  let rw := st.validators.block_rewards
  let records2 := rw.1.foldl (fun rs cr =>
      match rs.add cr.1 cr.2 with
      | .ok rs2 => rs2
      | .error _ => rs) records1
  ({ st with records := records2, validators := rw.2, height := height1 },
   { data := [], retain_height := 0 })

/-- A block header as `begin_block` reads it. -/
structure HeaderM where
  proposer_address : List Nat
  height : Int
deriving Repr, DecidableEq

/-- The validator payload of a vote. -/
structure ValidatorInfoM where
  address : List Nat
  power : Int
deriving Repr, DecidableEq

/-- One entry of `last_commit_info.votes`. -/
structure VoteInfoM where
  validator : Option ValidatorInfoM
  signed_last_block : Bool
deriving Repr, DecidableEq

/-- `RequestBeginBlock` as `begin_block` reads it. -/
structure RequestBeginBlockM where
  header : Option HeaderM
  last_commit_info : Option (List VoteInfoM)
deriving Repr, DecidableEq

/-- The `filter_map` closure of `begin_block` (application.rs:166-183): keep a
vote only when it signed the last block, carries a validator payload and has
non-negative power; the power is then cast to u64. -/
def voteFilter (v : VoteInfoM) : Option (List Nat × Nat) :=
  if !v.signed_last_block then none
  else
    match v.validator with
    | some val => if val.power < 0 then none else some (val.address, val.power.toNat)
    | none => none

/-- The voter power map assembled by `begin_block`. -/
def votesOf (lci : Option (List VoteInfoM)) : List (List Nat × Nat) :=
  (lci.getD []).filterMap voteFilter

/-- `SnarkVMApp::begin_block` (application.rs:150-193).  A request without a
header aborts the process (`expect`), modelled by `none`; otherwise the voter
power map is assembled and handed to the validator set together with the
proposer address and the height cast to u64. -/
def begin_block (st : AppState) (req : RequestBeginBlockM) : Option AppState :=
  match req.header with
  | none => none
  | some hd =>
    let vs1 := st.validators.begin_block hd.proposer_address
      (votesOf req.last_commit_info) (u64OfI64 hd.height)
    some { st with validators := vs1 }

/-- The outcome of one deliver call on the wire-encoded form of `tx`: the next
state and whether the transaction was accepted. -/
def deliverOutcome (pe : ProofEngine) (st : AppState) (tx : Transaction) :
    AppState × Bool :=
  match deliver_tx pe st (some tx) with
  | some p => (p.1, p.2.code == 0)
  | none => (st, false)

/-- Whether a transaction is a deployment of the program id `p`. -/
def isDeploymentOf (p : String) : Transaction → Bool
  | .Deployment _ prog _ _ => prog.id == p
  | _ => false

/-- Number of deployments of program id `p` accepted along a sequence of
`deliver_tx` calls starting from `st`. -/
def countSuccess (pe : ProofEngine) (p : String) : AppState → List Transaction → Nat
  | _, [] => 0
  | st, tx :: txs =>
    let o := deliverOutcome pe st tx
    (if isDeploymentOf p tx && o.2 then 1 else 0) + countSuccess pe p o.1 txs

/-- A proof engine that accepts everything: the concrete scenarios below only
exercise the orchestrator's bookkeeping, not the zero-knowledge verifiers. -/
def peOk : ProofEngine :=
  { verify_transaction := fun _ => .ok ()
    verify_deployment := fun _ _ => .ok ()
    verify_execution := fun _ _ => .ok () }

/-- Empty record store. -/
def rs0 : RecordStore :=
  { committedRecords := [], spentSerials := [], knownSerials := []
    pendingAdd := [], pendingSpend := [] }

/-- Empty validator set. -/
def vs0 : ValidatorSet :=
  { power := [], pendingStakes := [], fee_pot := 0, proposer := []
    voters := [], height := 0 }

/-- Empty application state. -/
def stEmpty : AppState :=
  { records := rs0, programs := { entries := [] }, validators := vs0, height := 0 }

/-- A deployed program `prog` and a store holding it. -/
def progP : Program := { id := "prog" }

/-- Program store holding only `prog`. -/
def psP : ProgramStore := { entries := [("prog", progP, 0)] }

/-- A transition producing an output record with commitment 5 and a fee of 3. -/
def trOut5 : Transition :=
  { program_id := "prog", function_name := "main", serial_numbers := []
    output_records := [(5, 77)], fee := 3, outputs := [] }

/-- An execution whose only output record has commitment 5. -/
def txC2 : Transaction := .Execution "t-c2" [trOut5] none

/-- A state in which commitment 5 is already committed, so adding `txC2`'s
output fails after validation already passed. -/
def stC2 : AppState :=
  { records := { rs0 with committedRecords := [(5, 9)] }, programs := psP
    validators := vs0, height := 0 }

/-- A state with a staged pending spend and a non-empty fee pot, used to watch
what `commit` does when the record store's persistence fails. -/
def stC3 : AppState :=
  { records := { rs0 with knownSerials := [1], pendingSpend := [1] }
    programs := { entries := [] }
    validators := { vs0 with fee_pot := 10, height := 4 }, height := 7 }

/-- A transition spending the same serial number twice. -/
def trDup : Transition :=
  { program_id := "prog", function_name := "main", serial_numbers := [1, 1]
    output_records := [], fee := 0, outputs := [] }

/-- An execution with a duplicated input serial number. -/
def txDup : Transaction := .Execution "t-dup" [trDup] none

/-- A transition consuming the unspent record with serial number 11 and
producing a fresh output with commitment 2. -/
def trW5 : Transition :=
  { program_id := "prog", function_name := "consume", serial_numbers := [11]
    output_records := [(2, 60)], fee := 1, outputs := [] }

/-- A well-formed execution over `stW5`. -/
def txW5 : Transaction := .Execution "t-w5" [trW5] none

/-- A state on which `txW5` passes every check. -/
def stW5 : AppState :=
  { records := { rs0 with committedRecords := [(1, 50)], knownSerials := [11] }
    programs := psP, validators := vs0, height := 0 }

/-- The program `hello`. -/
def progHello : Program := { id := "hello" }

/-- A deployment of `hello`. -/
def txW7 : Transaction := .Deployment "d-1" progHello 0 none

/-- A state already holding the program `hello`. -/
def stW7 : AppState :=
  { records := rs0, programs := { entries := [("hello", progHello, 0)] }
    validators := vs0, height := 0 }

/-- A transition with fee 2. -/
def trF2 : Transition :=
  { program_id := "prog", function_name := "a", serial_numbers := []
    output_records := [], fee := 2, outputs := [] }

/-- A transition with fee 3. -/
def trF3 : Transition :=
  { program_id := "prog", function_name := "b", serial_numbers := []
    output_records := [], fee := 3, outputs := [] }

/-- An execution with total fee 5. -/
def txW8 : Transaction := .Execution "t-w8" [trF2, trF3] none

/-- A state on which `txW8` passes every check. -/
def stW8 : AppState :=
  { records := rs0, programs := psP, validators := vs0, height := 0 }

/-- The accepting check response for `txW8`. -/
def rW8 : CheckResponse := { code := 0, log := "", priority := 5 }

/-- A transition with fee -5 (it mints more credits than it consumes). -/
def trNeg : Transition :=
  { program_id := "prog", function_name := "a", serial_numbers := []
    output_records := [], fee := -5, outputs := [] }

/-- An execution whose total fee is negative. -/
def txW9 : Transaction := .Execution "t-w9" [trNeg] none

/-- A transition consuming serial number 7. -/
def trSn7 : Transition :=
  { program_id := "prog", function_name := "a", serial_numbers := [7]
    output_records := [], fee := 0, outputs := [] }

/-- An execution consuming serial number 7. -/
def txW10 : Transaction := .Execution "t-w10" [trSn7] none

/-- A record-store lookup that always fails, modelling a storage error on every
`is_unspent` query. -/
def lookupErr : Nat → Except String Bool := fun _ => .error "storage failure"

/-! ## Supporting lemmas -/

/-- Queuing stake updates never touches the fee pot. -/
theorem foldl_apply_fee_pot (l : List Stake) :
    ∀ vs : ValidatorSet, (l.foldl ValidatorSet.apply vs).fee_pot = vs.fee_pot := by
  induction l with
  | nil => intro vs; rfl
  | cons s l ih => intro vs; rw [List.foldl_cons, ih]; rfl

/-- If validation passed, `stake_updates` cannot fail, hence
`update_validators` reports no error (its discarded result at
application.rs:212 is `Ok`). -/
theorem update_validators_snd_eq_none (pe : ProofEngine) (st : AppState)
    (tx : Transaction) (h : validate_transaction pe st tx = Except.ok ()) :
    (update_validators st.validators tx).2 = none := by
  unfold validate_transaction at h
  cases hv : pe.verify_transaction tx with
  | error e => rw [hv] at h; cases h
  | ok u =>
    rw [hv] at h
    cases tx with
    | Deployment i prog vk fee =>
      simp [update_validators, Transaction.stake_updates]
    | Execution i ts v =>
      simp only at h
      by_cases he : ts.isEmpty
      · rw [if_pos he] at h; cases h
      · rw [if_neg he] at h
        cases hsu : Transaction.stake_updates (Transaction.Execution i ts v) with
        | error e => rw [hsu] at h; cases h
        | ok us => simp [update_validators, hsu]

/-- C1: `deliver_tx` executes exactly the seven steps duplicate-check,
unspent-check, `validate_transaction`, `update_validators`, spend inputs, add
outputs, store program, in that order; it stops at the first failing step,
surfaces that step's error as a code-1 rejection, and does not roll back the
effects of earlier steps. -/
theorem c1_deliver_order (pe : ProofEngine) (st : AppState) (tx : Transaction) :
    deliver_tx pe st (some tx) = some (deliverTxSpec pe st tx) := by
  unfold deliver_tx deliverTxSpec deliverSteps
  cases h1 : check_no_duplicate_records tx with
  | error e => simp [runSteps, errOpt, h1]
  | ok u1 =>
    cases u1
    cases h2 : check_inputs_are_unspent st.records tx with
    | error e => simp [runSteps, errOpt, h1, h2]
    | ok u2 =>
      cases u2
      cases h3 : validate_transaction pe st tx with
      | error e => simp [runSteps, errOpt, h1, h2, h3]
      | ok u3 =>
        cases u3
        have h4 : (update_validators st.validators tx).2 = none :=
          update_validators_snd_eq_none pe st tx h3
        rcases hu : update_validators st.validators tx with ⟨vs1, o0⟩
        rw [hu] at h4
        simp only at h4
        subst h4
        simp only [runSteps, errOpt, h1, h2, h3, hu]
        rcases hsp : spendAll tx.record_serial_numbers st.records with ⟨rs1, o1⟩
        cases o1 with
        | some e => simp [runSteps, hsp]
        | none =>
          simp only [runSteps, hsp]
          rcases had : addAll tx.output_records rs1 with ⟨rs2, o2⟩
          cases o2 with
          | some e => simp [runSteps, had]
          | none =>
            simp only [runSteps, had]
            rcases hst : store_program st.programs tx with ⟨ps1, o3⟩
            cases o3 with
            | some e => simp [runSteps, hst]
            | none => simp [runSteps, hst]

/-- C9: `update_validators` adds `tx.fees()` cast from i64 to u64 to the fee
pot; for a transaction whose fee total is negative, the collected amount is
`2^64` plus the fee total, not zero and not a reduction of the pot. -/
theorem c9_negative_fee (vs : ValidatorSet) (tx : Transaction)
    (h1 : tx.fees < 0) (h2 : -(2 ^ 63) ≤ tx.fees) :
    (tx.feesAsU64 : Int) = 2 ^ 64 + tx.fees ∧
    (update_validators vs tx).1.fee_pot = (vs.fee_pot + tx.feesAsU64) % 2 ^ 64 := by
  constructor
  · unfold Transaction.feesAsU64 u64OfI64
    have hp : (2 : Int) ^ 64 = 18446744073709551616 := by norm_num
    have hq : (2 : Int) ^ 63 = 9223372036854775808 := by norm_num
    rw [hq] at h2
    rw [hp]
    have h3 : tx.fees.emod 18446744073709551616 =
        tx.fees % 18446744073709551616 := rfl
    rw [h3]
    omega
  · unfold update_validators
    cases hsu : tx.stake_updates with
    | error e => simp [ValidatorSet.collect]
    | ok us => simp [foldl_apply_fee_pot, ValidatorSet.collect]

/-- Witness for C9 at a concrete execution with fee total -5: the pot receives
`2^64 - 5`. -/
theorem c9_negative_fee_witness :
    txW9.fees < 0 ∧
    ((txW9.feesAsU64 : Int) = 2 ^ 64 + txW9.fees ∧
     (update_validators vs0 txW9).1.fee_pot = (vs0.fee_pot + txW9.feesAsU64) % 2 ^ 64) :=
  ⟨by decide, c9_negative_fee vs0 txW9 (by decide) (by decide)⟩

/-- C10: in `check_inputs_are_unspent`, a serial number whose `is_unspent`
lookup errors is treated as unspent (`unwrap_or(true)`), so when every input's
lookup errors or reports unspent the check passes instead of rejecting. -/
theorem c10_error_treated_unspent (lookup : Nat → Except String Bool)
    (tx : Transaction)
    (h : ∀ sn ∈ tx.record_serial_numbers,
      (∃ e, lookup sn = .error e) ∨ lookup sn = .ok true) :
    check_inputs_are_unspent_with lookup tx = .ok () ∧
    (∀ sn e, lookup sn = .error e → spentPred lookup sn = false) := by
  constructor
  · unfold check_inputs_are_unspent_with
    have hf : tx.record_serial_numbers.find? (spentPred lookup) = none := by
      rw [List.find?_eq_none]
      intro sn hsn
      rcases h sn hsn with ⟨e, he⟩ | ht
      · simp [spentPred, exceptUnwrapOr, he]
      · simp [spentPred, exceptUnwrapOr, ht]
    rw [hf]
  · intro sn e he
    simp [spentPred, exceptUnwrapOr, he]

/-- Witness for C10: with a lookup that errors on every serial number, the
unspent-inputs check passes for `txW10` and its erroring serial number 7 is
classified as not spent. -/
theorem c10_error_treated_unspent_witness :
    check_inputs_are_unspent_with lookupErr txW10 = .ok () ∧
    spentPred lookupErr 7 = false :=
  ⟨(c10_error_treated_unspent lookupErr txW10
      (fun _ _ => Or.inl ⟨"storage failure", rfl⟩)).1,
   (c10_error_treated_unspent lookupErr txW10
      (fun _ _ => Or.inl ⟨"storage failure", rfl⟩)).2 7 "storage failure" rfl⟩

/-- Staging an addition (or failing to) never touches the committed records,
the committed spends, the serial index, or the pending spends. -/
theorem add_preserves_fields (rs : RecordStore) (c r : Nat) :
    (match rs.add c r with
     | .ok rs2 => rs2
     | .error _ => rs).committedRecords = rs.committedRecords ∧
    (match rs.add c r with
     | .ok rs2 => rs2
     | .error _ => rs).spentSerials = rs.spentSerials ∧
    (match rs.add c r with
     | .ok rs2 => rs2
     | .error _ => rs).knownSerials = rs.knownSerials ∧
    (match rs.add c r with
     | .ok rs2 => rs2
     | .error _ => rs).pendingSpend = rs.pendingSpend := by
  unfold RecordStore.add
  by_cases h : c ∈ rs.committedCommitments ∨ c ∈ rs.pendingCommitments
  · rw [if_pos h]; exact ⟨rfl, rfl, rfl, rfl⟩
  · rw [if_neg h]; exact ⟨rfl, rfl, rfl, rfl⟩

/-- Corrected form of C3: a record-store commit failure during the `commit`
hook is logged and tolerated, not fatal.  The hook still increments the
height, still runs the reward minting (resetting the fee pot), and the record
store's staging and committed state are left exactly as they were (apart from
newly staged reward records). -/
theorem c3_amended (st : AppState) :
    (commit false st).1.height = st.height + 1 ∧
    (commit false st).1.validators.fee_pot = 0 ∧
    (commit false st).1.records.committedRecords = st.records.committedRecords ∧
    (commit false st).1.records.spentSerials = st.records.spentSerials ∧
    (commit false st).1.records.pendingSpend = st.records.pendingSpend ∧
    (commit false st).2 = { data := [], retain_height := 0 } := by
  unfold commit RecordStore.commit heightIncrement ValidatorSet.block_rewards
  simp only [Bool.false_eq_true, if_false, List.foldl_cons, List.foldl_nil]
  have hp := add_preserves_fields st.records (2 ^ 32 * st.validators.height + 1)
    (st.validators.fee_pot + coinbase)
  exact ⟨trivial, trivial, hp.1, hp.2.1, hp.2.2.2, trivial⟩

/-- Counterexample to C3: on `stC3`, whose record store has a staged spend and
whose fee pot is 10, a failing record-store commit does not abort the hook;
the height still advances from 7 to 8, the fee pot is still reset by reward
minting, the staged spend is still pending (it was never promoted), and the
hook returns its normal response. -/
theorem c3_counterexample :
    (commit false stC3).1.height = 8 ∧
    (commit false stC3).1.validators.fee_pot = 0 ∧
    (commit false stC3).1.records.pendingSpend = [1] ∧
    stC3.validators.fee_pot = 10 ∧
    (commit false stC3).2 = { data := [], retain_height := 0 } := by
  refine ⟨?_, ?_, ?_, rfl, ?_⟩ <;> rfl

/-- Every response of `deliver_tx` on decodable bytes is either the accept
response or a code-1 rejection carrying a message. -/
theorem deliver_shape (pe : ProofEngine) (st : AppState) (tx : Transaction) :
    ∀ p, deliver_tx pe st (some tx) = some p →
      p.2 = deliverAccept tx ∨ ∃ e, p.2 = deliverReject e := by
  intro p h
  unfold deliver_tx at h
  dsimp only [] at h
  cases h1 : check_no_duplicate_records tx with
  | error e => rw [h1] at h; dsimp only [] at h; cases h; exact Or.inr ⟨e, rfl⟩
  | ok u1 =>
    rw [h1] at h; dsimp only [] at h
    cases h2 : check_inputs_are_unspent st.records tx with
    | error e => rw [h2] at h; dsimp only [] at h; cases h; exact Or.inr ⟨e, rfl⟩
    | ok u2 =>
      rw [h2] at h; dsimp only [] at h
      cases h3 : validate_transaction pe st tx with
      | error e => rw [h3] at h; dsimp only [] at h; cases h; exact Or.inr ⟨e, rfl⟩
      | ok u3 =>
        rw [h3] at h; dsimp only [] at h
        rcases hsp : spendAll tx.record_serial_numbers st.records with ⟨rs1, o1⟩
        rw [hsp] at h
        cases o1 with
        | some e => dsimp only [] at h; cases h; exact Or.inr ⟨e, rfl⟩
        | none =>
          dsimp only [] at h
          rcases had : addAll tx.output_records rs1 with ⟨rs2, o2⟩
          rw [had] at h
          cases o2 with
          | some e => dsimp only [] at h; cases h; exact Or.inr ⟨e, rfl⟩
          | none =>
            dsimp only [] at h
            rcases hst : store_program st.programs tx with ⟨ps1, o3⟩
            rw [hst] at h
            cases o3 with
            | some e => dsimp only [] at h; cases h; exact Or.inr ⟨e, rfl⟩
            | none => dsimp only [] at h; cases h; exact Or.inl rfl

/-- `deliver_tx` on decodable bytes always produces a response (the only
process abort is the deserialization `unwrap`). -/
theorem deliver_isSome (pe : ProofEngine) (st : AppState) (tx : Transaction) :
    (deliver_tx pe st (some tx)).isSome = true := by
  unfold deliver_tx
  dsimp only []
  cases h1 : check_no_duplicate_records tx with
  | error e => simp
  | ok u1 =>
    cases h2 : check_inputs_are_unspent st.records tx with
    | error e => simp
    | ok u2 =>
      cases h3 : validate_transaction pe st tx with
      | error e => simp
      | ok u3 =>
        rcases hsp : spendAll tx.record_serial_numbers st.records with ⟨rs1, o1⟩
        cases o1 with
        | some e => simp
        | none =>
          dsimp only []
          rcases had : addAll tx.output_records rs1 with ⟨rs2, o2⟩
          cases o2 with
          | some e => simp
          | none =>
            dsimp only []
            rcases hst : store_program st.programs tx with ⟨ps1, o3⟩
            cases o3 with
            | some e => simp
            | none => simp

/-- Corrected form of C4: every failure of the validation/delivery pipeline on
a decodable transaction yields a `code = 1` response carrying a message, and
neither hook aborts on such input; a transaction that does not deserialize,
however, aborts the process in both hooks instead of returning `code = 1`. -/
theorem c4_amended (pe : ProofEngine) (st : AppState) (tx : Transaction) :
    check_tx pe st none = none ∧
    deliver_tx pe st none = none ∧
    (check_tx pe st (some tx)).isSome = true ∧
    (deliver_tx pe st (some tx)).isSome = true ∧
    (∀ r, check_tx pe st (some tx) = some r →
      r.code = 0 ∨ (r.code = 1 ∧ ∃ e, validations pe st tx = .error e ∧
        r.log = "Could not verify transaction: " ++ e)) ∧
    (∀ p, deliver_tx pe st (some tx) = some p →
      p.2.code = 0 ∨ (p.2.code = 1 ∧ ∃ e,
        p.2.log = "Error delivering transaction: " ++ e)) := by
  refine ⟨rfl, rfl, ?_, deliver_isSome pe st tx, ?_, ?_⟩
  · unfold check_tx
    dsimp only []
    cases hv : validations pe st tx with
    | error e => simp
    | ok u => simp
  · intro r h
    unfold check_tx at h
    dsimp only [] at h
    cases hv : validations pe st tx with
    | error e =>
      rw [hv] at h; dsimp only [] at h; cases h
      exact Or.inr ⟨rfl, e, rfl, rfl⟩
    | ok u =>
      rw [hv] at h; dsimp only [] at h; cases h
      exact Or.inl rfl
  · intro p h
    rcases deliver_shape pe st tx p h with ha | ⟨e, he⟩
    · exact Or.inl (by rw [ha]; rfl)
    · exact Or.inr ⟨by rw [he]; rfl, e, by rw [he]; rfl⟩

/-- Witness for C4's amended statement at a concrete state and transaction. -/
theorem c4_amended_witness :
    check_tx peOk stEmpty none = none ∧
    (check_tx peOk stEmpty (some txDup)).isSome = true :=
  ⟨(c4_amended peOk stEmpty txDup).1, (c4_amended peOk stEmpty txDup).2.2.1⟩

/-- Counterexample to C4: bytes that do not deserialize make both hooks abort
the process (the `unwrap` at application.rs:120 and application.rs:201)
instead of producing a `code = 1` response. -/
theorem c4_counterexample :
    check_tx peOk stEmpty none = none ∧ deliver_tx peOk stEmpty none = none :=
  ⟨rfl, rfl⟩

/-- Corrected form of C2 (staging isolation): a rejection arising from the
validation phase (duplicate check, unspent check, `validate_transaction`)
leaves the application state untouched.  (A rejection from a later step —
e.g. an output commitment that already exists — does not roll back the fee
collection, stake updates and staged spends already performed, as the
counterexample shows.) -/
theorem c2_amended (pe : ProofEngine) (st : AppState) (tx : Transaction)
    (e : String) (h : validations pe st tx = .error e) :
    deliver_tx pe st (some tx) = some (st, deliverReject e) := by
  unfold validations at h
  unfold deliver_tx
  dsimp only []
  cases h1 : check_no_duplicate_records tx with
  | error e1 =>
    rw [h1] at h; dsimp only [] at h
    injection h with h'
    subst h'
    simp
  | ok u1 =>
    rw [h1] at h; dsimp only [] at h
    cases h2 : check_inputs_are_unspent st.records tx with
    | error e1 =>
      rw [h2] at h; dsimp only [] at h
      injection h with h'
      subst h'
      simp
    | ok u2 =>
      rw [h2] at h; dsimp only [] at h
      rw [h]

/-- Witness for C2's amended statement: a duplicated input serial number is a
validation-phase failure, and `deliver_tx` rejects it leaving the state
unchanged. -/
theorem c2_amended_witness :
    deliver_tx peOk stEmpty (some txDup) =
      some (stEmpty, deliverReject
        "record with serial number 1 in transaction t-dup is duplicate") :=
  c2_amended peOk stEmpty txDup
    "record with serial number 1 in transaction t-dup is duplicate" rfl

/-- Counterexample to C2: on `stC2` (commitment 5 already committed, fee pot
0), delivering `txC2` (fee 3, output commitment 5) is rejected with code 1 —
the add-output step fails — yet the validator set has already collected the
fee: the fee pot of the returned state is 3, not 0. -/
theorem c2_counterexample :
    (deliver_tx peOk stC2 (some txC2)).map
      (fun q => (q.2.code, q.1.validators.fee_pot)) = some (1, 3) ∧
    stC2.validators.fee_pot = 0 :=
  ⟨rfl, rfl⟩

/-- C6: `begin_block` aborts when the request has no header; otherwise it
assembles the voter power map from `last_commit_info.votes` — keeping exactly
the votes that signed the previous block, carry a validator payload and have
non-negative power — and hands it, with the proposer address and the height
cast to u64, to the validator set. -/
theorem c6_begin_block (st : AppState) (hd : HeaderM) (lci : Option (List VoteInfoM)) :
    begin_block st { header := none, last_commit_info := lci } = none ∧
    begin_block st { header := some hd, last_commit_info := lci } =
      some { st with validators := st.validators.begin_block hd.proposer_address (votesOf lci) (u64OfI64 hd.height) } ∧
    (∀ a p, (a, p) ∈ votesOf lci ↔
      ∃ v ∈ lci.getD [], v.signed_last_block = true ∧
        ∃ val, v.validator = some val ∧ 0 ≤ val.power ∧ val.address = a ∧
          val.power.toNat = p) := by
  refine ⟨rfl, rfl, ?_⟩
  intro a p
  unfold votesOf
  rw [List.mem_filterMap]
  constructor
  · rintro ⟨v, hv, hf⟩
    refine ⟨v, hv, ?_⟩
    cases hs : v.signed_last_block with
    | false => simp [voteFilter, hs] at hf
    | true =>
      cases hval : v.validator with
      | none => simp [voteFilter, hs, hval] at hf
      | some val =>
        by_cases hp : val.power < 0
        · simp [voteFilter, hs, hval, hp] at hf
        · simp [voteFilter, hs, hval, hp] at hf
          exact ⟨rfl, val, rfl, not_lt.mp hp, hf.1, hf.2⟩
  · rintro ⟨v, hv, hs, val, hval, hp0, ha, hpn⟩
    refine ⟨v, hv, ?_⟩
    simp [voteFilter, hs, hval, not_lt.mpr hp0, ha, hpn]

/-- Folding the fee accumulator of `Transaction::fees` from any start value
adds the sum of the transition fees. -/
theorem foldl_add_fee (ts : List Transition) :
    ∀ a : Int, ts.foldl (fun acc t => acc + t.fee) a =
      a + (ts.map Transition.fee).sum := by
  induction ts with
  | nil => intro a; simp
  | cons t ts ih => intro a; simp [ih]; ring

/-- C8: for every transaction accepted by `check_tx`, the mempool priority of
the response equals `tx.fees()`: the deployment's fee-transition fee (0 when
absent) for a deployment and the signed sum of the transition fees for an
execution. -/
theorem c8_priority (pe : ProofEngine) (st : AppState) (tx : Transaction)
    (r : CheckResponse) (hc : check_tx pe st (some tx) = some r)
    (h0 : r.code = 0) :
    r.priority = tx.fees ∧
    (∀ i prog vk, tx = .Deployment i prog vk none → tx.fees = 0) ∧
    (∀ i prog vk t, tx = .Deployment i prog vk (some t) → tx.fees = t.fee) ∧
    (∀ i ts v, tx = .Execution i ts v →
      tx.fees = (ts.map Transition.fee).sum) := by
  have hpr : r.priority = tx.fees := by
    unfold check_tx at hc
    dsimp only [] at hc
    cases hv : validations pe st tx with
    | error e =>
      rw [hv] at hc; dsimp only [] at hc; cases hc
      simp at h0
    | ok u =>
      rw [hv] at hc; dsimp only [] at hc; cases hc
      rfl
  refine ⟨hpr, ?_, ?_, ?_⟩
  · rintro i prog vk rfl; rfl
  · rintro i prog vk t rfl; rfl
  · rintro i ts v rfl
    simp [Transaction.fees, foldl_add_fee]

/-- Witness for C8 at a concrete accepted execution whose transition fees are
2 and 3: the mempool priority is 5. -/
theorem c8_priority_witness :
    check_tx peOk stW8 (some txW8) = some rW8 ∧ rW8.priority = txW8.fees :=
  ⟨rfl, (c8_priority peOk stW8 txW8 rW8 rfl rfl).1⟩

/-- If the duplicate scan comes back empty, the scanned list has no duplicate
and avoids the seen-set. -/
theorem firstDup_eq_none : ∀ (l : List Nat) (seen : List Nat),
    firstDup seen l = none → l.Nodup ∧ ∀ x ∈ l, x ∉ seen := by
  intro l
  induction l with
  | nil => intro seen _; exact ⟨List.nodup_nil, by simp⟩
  | cons x xs ih =>
    intro seen h
    unfold firstDup at h
    by_cases hx : x ∈ seen
    · rw [if_pos hx] at h; cases h
    · rw [if_neg hx] at h
      obtain ⟨hnd, hni⟩ := ih (x :: seen) h
      constructor
      · rw [List.nodup_cons]
        refine ⟨fun hxx => ?_, hnd⟩
        exact (hni x hxx) (List.mem_cons_self x seen)
      · intro y hy
        rcases List.mem_cons.mp hy with rfl | hys
        · exact hx
        · intro hyseen
          exact (hni y hys) (List.mem_cons.mpr (Or.inr hyseen))

/-- A passed duplicate check means the serial numbers are pairwise distinct. -/
theorem nodup_of_dup_check (tx : Transaction)
    (h : check_no_duplicate_records tx = .ok ()) :
    tx.record_serial_numbers.Nodup := by
  unfold check_no_duplicate_records at h
  cases hf : firstDup [] tx.record_serial_numbers with
  | some sn => rw [hf] at h; dsimp only [] at h; cases h
  | none => exact (firstDup_eq_none _ [] hf).1

/-- A passed unspent check means every input serial number is unspent in the
store. -/
theorem unspent_of_unspent_check (rs : RecordStore) (tx : Transaction)
    (h : check_inputs_are_unspent rs tx = .ok ()) :
    ∀ sn ∈ tx.record_serial_numbers, rs.is_unspent sn = true := by
  unfold check_inputs_are_unspent check_inputs_are_unspent_with at h
  cases hf : tx.record_serial_numbers.find?
      (spentPred (fun sn => .ok (rs.is_unspent sn))) with
  | some sn => rw [hf] at h; dsimp only [] at h; cases h
  | none =>
    intro sn hsn
    have h2 := List.find?_eq_none.mp hf sn hsn
    simp [spentPred, exceptUnwrapOr] at h2
    exact h2

/-- Spending pairwise-distinct, unspent serial numbers succeeds and only
extends the pending-spend staging. -/
theorem spendAll_ok : ∀ (sns : List Nat) (rs : RecordStore),
    sns.Nodup → (∀ sn ∈ sns, rs.is_unspent sn = true) →
    spendAll sns rs =
      ({ rs with pendingSpend := rs.pendingSpend ++ sns }, none) := by
  intro sns
  induction sns with
  | nil => intro rs _ _; simp [spendAll]
  | cons sn sns ih =>
    intro rs hnd hun
    have hu : rs.is_unspent sn = true := hun sn (List.mem_cons_self _ _)
    have hsp : rs.spend sn =
        .ok { rs with pendingSpend := rs.pendingSpend ++ [sn] } := by
      simp [RecordStore.spend, hu]
    rw [List.nodup_cons] at hnd
    have hun' : ∀ s ∈ sns,
        ({ rs with pendingSpend := rs.pendingSpend ++ [sn] } : RecordStore).is_unspent s
          = true := by
      intro s hs
      have h1 := hun s (List.mem_cons_of_mem _ hs)
      have hne : s ≠ sn := fun hcontra => hnd.1 (hcontra ▸ hs)
      simp [RecordStore.is_unspent] at h1 ⊢
      exact ⟨h1.1, h1.2.1, h1.2.2, hne⟩
    unfold spendAll
    rw [hsp]
    dsimp only []
    rw [ih _ hnd.2 hun']
    simp

/-- Adding records with pairwise-distinct, fresh commitments succeeds and only
extends the pending-add staging. -/
theorem addAll_ok : ∀ (outs : List (Nat × Nat)) (rs : RecordStore),
    (outs.map Prod.fst).Nodup →
    (∀ c ∈ outs.map Prod.fst,
      c ∉ rs.committedCommitments ∧ c ∉ rs.pendingCommitments) →
    addAll outs rs = ({ rs with pendingAdd := rs.pendingAdd ++ outs }, none) := by
  intro outs
  induction outs with
  | nil => intro rs _ _; simp [addAll]
  | cons cr crs ih =>
    intro rs hnd hfr
    have hc := hfr cr.1 (by simp)
    have hadd : rs.add cr.1 cr.2 =
        .ok { rs with pendingAdd := rs.pendingAdd ++ [cr] } := by
      unfold RecordStore.add
      rw [if_neg (by push_neg; exact hc)]
    rw [List.map_cons, List.nodup_cons] at hnd
    have hfr' : ∀ c ∈ crs.map Prod.fst,
        c ∉ ({ rs with pendingAdd := rs.pendingAdd ++ [cr] } : RecordStore).committedCommitments ∧
        c ∉ ({ rs with pendingAdd := rs.pendingAdd ++ [cr] } : RecordStore).pendingCommitments := by
      intro c hcm
      have h1 := hfr c (List.mem_cons_of_mem _ hcm)
      have hne : c ≠ cr.1 := fun hcontra => hnd.1 (hcontra ▸ hcm)
      refine ⟨h1.1, ?_⟩
      simp [RecordStore.pendingCommitments] at h1 ⊢
      exact ⟨h1.2, hne⟩
    unfold addAll
    rw [hadd]
    dsimp only []
    rw [ih _ hnd.2 hfr']
    simp

/-- `validations` succeeds exactly when its three stages succeed. -/
theorem validations_ok_parts (pe : ProofEngine) (st : AppState) (tx : Transaction)
    (h : validations pe st tx = .ok ()) :
    check_no_duplicate_records tx = .ok () ∧
    check_inputs_are_unspent st.records tx = .ok () ∧
    validate_transaction pe st tx = .ok () := by
  unfold validations at h
  cases h1 : check_no_duplicate_records tx with
  | error e => rw [h1] at h; dsimp only [] at h; cases h
  | ok u1 =>
    cases u1
    rw [h1] at h; dsimp only [] at h
    cases h2 : check_inputs_are_unspent st.records tx with
    | error e => rw [h2] at h; dsimp only [] at h; cases h
    | ok u2 =>
      cases u2
      rw [h2] at h; dsimp only [] at h
      exact ⟨rfl, rfl, h⟩

/-- A deployment that validated has a program id that is not yet in the
program store. -/
theorem not_exists_of_validate_deployment (pe : ProofEngine) (st : AppState)
    (i : String) (prog : Program) (vk : Nat) (fee : Option Transition)
    (h : validate_transaction pe st (.Deployment i prog vk fee) = .ok ()) :
    st.programs.existsProgram prog.id = false := by
  unfold validate_transaction at h
  cases hv : pe.verify_transaction (.Deployment i prog vk fee) with
  | error e => rw [hv] at h; dsimp only [] at h; cases h
  | ok u =>
    rw [hv] at h; dsimp only [] at h
    cases hex : st.programs.existsProgram prog.id with
    | true => rw [hex] at h; simp at h
    | false => rfl

/-- Corrected form of C5 (check/deliver consistency): if `check_tx` accepts and
the state is unchanged, `deliver_tx` also accepts **provided** the output
record commitments of the transaction are pairwise distinct and fresh for the
record store; `check_tx` does not inspect output commitments, so without this
extra hypothesis the add-output step of `deliver_tx` can still reject (see the
counterexample). -/
theorem c5_amended (pe : ProofEngine) (st : AppState) (tx : Transaction)
    (r : CheckResponse) (hc : check_tx pe st (some tx) = some r) (h0 : r.code = 0)
    (hnd : (tx.output_records.map Prod.fst).Nodup)
    (hfresh : ∀ c ∈ tx.output_records.map Prod.fst,
      c ∉ st.records.committedCommitments ∧ c ∉ st.records.pendingCommitments) :
    ∃ st1 r1, deliver_tx pe st (some tx) = some (st1, r1) ∧ r1.code = 0 := by
  have hval : validations pe st tx = .ok () := by
    unfold check_tx at hc
    dsimp only [] at hc
    cases hv : validations pe st tx with
    | error e => rw [hv] at hc; dsimp only [] at hc; cases hc; simp at h0
    | ok u => cases u; rfl
  obtain ⟨h1, h2, h3⟩ := validations_ok_parts pe st tx hval
  have hsnd : tx.record_serial_numbers.Nodup := nodup_of_dup_check tx h1
  have hsun : ∀ sn ∈ tx.record_serial_numbers, st.records.is_unspent sn = true :=
    unspent_of_unspent_check st.records tx h2
  have hsp := spendAll_ok tx.record_serial_numbers st.records hsnd hsun
  have hfr1 : ∀ c ∈ tx.output_records.map Prod.fst,
      c ∉ ({ st.records with
        pendingSpend := st.records.pendingSpend ++ tx.record_serial_numbers } :
          RecordStore).committedCommitments ∧
      c ∉ ({ st.records with
        pendingSpend := st.records.pendingSpend ++ tx.record_serial_numbers } :
          RecordStore).pendingCommitments := by
    intro c hcm
    simpa [RecordStore.committedCommitments, RecordStore.pendingCommitments]
      using hfresh c hcm
  have had := addAll_ok tx.output_records _ hnd hfr1
  unfold deliver_tx
  dsimp only []
  rw [h1]; dsimp only []
  rw [h2]; dsimp only []
  rw [h3]; dsimp only []
  rw [hsp]; dsimp only []
  rw [had]; dsimp only []
  cases tx with
  | Execution i ts v => exact ⟨_, _, rfl, rfl⟩
  | Deployment i prog vk fee =>
    have hex := not_exists_of_validate_deployment pe st i prog vk fee h3
    have hstp : store_program st.programs (.Deployment i prog vk fee) =
        ({ entries := st.programs.entries ++ [(prog.id, prog, vk)] }, none) := by
      simp [store_program, ProgramStore.add, hex]
    rw [hstp]
    exact ⟨_, _, rfl, rfl⟩

/-- Witness for C5's amended statement at a concrete accepted execution with a
fresh output commitment: check accepts and deliver accepts. -/
theorem c5_amended_witness :
    check_tx peOk stW5 (some txW5) = some { code := 0, log := "", priority := 1 } ∧
    (∃ st1 r1, deliver_tx peOk stW5 (some txW5) = some (st1, r1) ∧ r1.code = 0) :=
  ⟨rfl, c5_amended peOk stW5 txW5 { code := 0, log := "", priority := 1 }
    rfl rfl (by decide) (by decide)⟩

/-- Counterexample to C5: on `stC2` the transaction `txC2` is accepted by
`check_tx` (code 0) but rejected by `deliver_tx` (code 1) with no state change
in between — its output commitment 5 already exists in the record store, which
the check pipeline never inspects. -/
theorem c5_counterexample :
    (check_tx peOk stC2 (some txC2)).map CheckResponse.code = some 0 ∧
    (deliver_tx peOk stC2 (some txC2)).map (fun q => q.2.code) = some 1 :=
  ⟨rfl, rfl⟩

/-- `validate_transaction` rejects a deployment whose program id already
exists. -/
theorem validate_deployment_fails_of_exists (pe : ProofEngine) (st : AppState)
    (i : String) (prog : Program) (vk : Nat) (fee : Option Transition)
    (hex : st.programs.existsProgram prog.id = true) :
    (validate_transaction pe st (.Deployment i prog vk fee)).isOk = false := by
  unfold validate_transaction
  cases hv : pe.verify_transaction (.Deployment i prog vk fee) with
  | error e => rfl
  | ok u =>
    dsimp only []
    rw [hex]
    rfl

/-- `check_tx` rejects a deployment whose program id already exists. -/
theorem check_deployment_exists (pe : ProofEngine) (st : AppState)
    (i : String) (prog : Program) (vk : Nat) (fee : Option Transition)
    (hex : st.programs.existsProgram prog.id = true) :
    (check_tx pe st (some (.Deployment i prog vk fee))).map CheckResponse.code
      = some 1 := by
  unfold check_tx
  dsimp only []
  cases hv : validations pe st (.Deployment i prog vk fee) with
  | error e => simp
  | ok u =>
    exfalso
    cases u
    obtain ⟨_, _, h3⟩ := validations_ok_parts pe st _ hv
    have hne := validate_deployment_fails_of_exists pe st i prog vk fee hex
    rw [h3] at hne
    exact Bool.noConfusion hne

/-- `deliver_tx` rejects a deployment whose program id already exists, leaving
the state unchanged. -/
theorem deliver_deployment_exists (pe : ProofEngine) (st : AppState)
    (i : String) (prog : Program) (vk : Nat) (fee : Option Transition)
    (hex : st.programs.existsProgram prog.id = true) :
    (deliver_tx pe st (some (.Deployment i prog vk fee))).map
      (fun q => (q.1, q.2.code)) = some (st, 1) := by
  unfold deliver_tx
  dsimp only []
  cases h1 : check_no_duplicate_records (.Deployment i prog vk fee) with
  | error e => simp [deliverReject]
  | ok u1 =>
    cases h2 : check_inputs_are_unspent st.records (.Deployment i prog vk fee) with
    | error e => simp [deliverReject]
    | ok u2 =>
      cases h3 : validate_transaction pe st (.Deployment i prog vk fee) with
      | error e => simp [deliverReject]
      | ok u3 =>
        exfalso
        have hne := validate_deployment_fails_of_exists pe st i prog vk fee hex
        rw [h3] at hne
        exact Bool.noConfusion hne

/-- `store_program` can only grow the program store, and a successful store of
a deployment makes its program id exist. -/
theorem store_program_facts (ps : ProgramStore) (tx : Transaction) (q : String) :
    (ps.existsProgram q = true → (store_program ps tx).1.existsProgram q = true) ∧
    ((store_program ps tx).2 = none → isDeploymentOf q tx = true →
      (store_program ps tx).1.existsProgram q = true) := by
  cases tx with
  | Execution i ts v => exact ⟨fun h => h, fun _ hd => by cases hd⟩
  | Deployment i prog vk fee =>
    unfold store_program
    dsimp only []
    cases hadd : ps.add prog.id prog vk with
    | error e =>
      dsimp only []
      exact ⟨fun h => h, fun hn _ => by cases hn⟩
    | ok ps1 =>
      dsimp only []
      unfold ProgramStore.add at hadd
      cases hex : ps.existsProgram prog.id with
      | true => rw [hex] at hadd; simp at hadd
      | false =>
        rw [hex] at hadd
        simp only [Bool.false_eq_true, if_false] at hadd
        injection hadd with h'
        subst h'
        constructor
        · intro h
          simp only [ProgramStore.existsProgram, List.any_eq_true] at h ⊢
          obtain ⟨x, hx, hxq⟩ := h
          exact ⟨x, List.mem_append.mpr (Or.inl hx), hxq⟩
        · intro _ hd
          simp only [isDeploymentOf] at hd
          simp only [ProgramStore.existsProgram, List.any_eq_true]
          exact ⟨(prog.id, prog, vk), List.mem_append.mpr (Or.inr (by simp)), hd⟩

/-- Along one `deliver_tx` call, program-id existence is monotone, and an
accepted deployment makes its program id exist. -/
theorem deliver_programs (pe : ProofEngine) (st : AppState) (tx : Transaction)
    (q : String) (p : AppState × DeliverResponse)
    (h : deliver_tx pe st (some tx) = some p) :
    (st.programs.existsProgram q = true → p.1.programs.existsProgram q = true) ∧
    (p.2.code = 0 → isDeploymentOf q tx = true →
      p.1.programs.existsProgram q = true) := by
  unfold deliver_tx at h
  dsimp only [] at h
  cases h1 : check_no_duplicate_records tx with
  | error e =>
    rw [h1] at h; dsimp only [] at h; cases h
    exact ⟨fun hq => hq, fun hc => by simp [deliverReject] at hc⟩
  | ok u1 =>
    rw [h1] at h; dsimp only [] at h
    cases h2 : check_inputs_are_unspent st.records tx with
    | error e =>
      rw [h2] at h; dsimp only [] at h; cases h
      exact ⟨fun hq => hq, fun hc => by simp [deliverReject] at hc⟩
    | ok u2 =>
      rw [h2] at h; dsimp only [] at h
      cases h3 : validate_transaction pe st tx with
      | error e =>
        rw [h3] at h; dsimp only [] at h; cases h
        exact ⟨fun hq => hq, fun hc => by simp [deliverReject] at hc⟩
      | ok u3 =>
        rw [h3] at h; dsimp only [] at h
        rcases hsp : spendAll tx.record_serial_numbers st.records with ⟨rs1, o1⟩
        rw [hsp] at h
        cases o1 with
        | some e =>
          dsimp only [] at h; cases h
          exact ⟨fun hq => hq, fun hc => by simp [deliverReject] at hc⟩
        | none =>
          dsimp only [] at h
          rcases had : addAll tx.output_records rs1 with ⟨rs2, o2⟩
          rw [had] at h
          cases o2 with
          | some e =>
            dsimp only [] at h; cases h
            exact ⟨fun hq => hq, fun hc => by simp [deliverReject] at hc⟩
          | none =>
            dsimp only [] at h
            rcases hst : store_program st.programs tx with ⟨ps1, o3⟩
            rw [hst] at h
            have hfacts := store_program_facts st.programs tx q
            rw [hst] at hfacts
            cases o3 with
            | some e =>
              dsimp only [] at h; cases h
              exact ⟨fun hq => hfacts.1 hq, fun hc => by simp [deliverReject] at hc⟩
            | none =>
              dsimp only [] at h; cases h
              exact ⟨fun hq => hfacts.1 hq, fun _ hd => hfacts.2 rfl hd⟩

/-- Once a program id exists, no deployment of it is ever counted as a success
along any later sequence of deliveries. -/
theorem countSuccess_zero (pe : ProofEngine) (q : String) :
    ∀ (txs : List Transaction) (st : AppState),
      st.programs.existsProgram q = true → countSuccess pe q st txs = 0 := by
  intro txs
  induction txs with
  | nil => intro st _; rfl
  | cons tx txs ih =>
    intro st hex
    unfold countSuccess deliverOutcome
    obtain ⟨p, hp⟩ := Option.isSome_iff_exists.mp (deliver_isSome pe st tx)
    rw [hp]
    dsimp only []
    have hfacts := deliver_programs pe st tx q p hp
    have hex1 : p.1.programs.existsProgram q = true := hfacts.1 hex
    have hcond : (isDeploymentOf q tx && (p.2.code == 0)) = false := by
      cases hd : isDeploymentOf q tx with
      | false => rfl
      | true =>
        cases tx with
        | Execution i ts v => simp [isDeploymentOf] at hd
        | Deployment i prog vk fee =>
          simp only [isDeploymentOf] at hd
          have hq : prog.id = q := by simpa using hd
          have hrej := deliver_deployment_exists pe st i prog vk fee (hq ▸ hex)
          rw [hp] at hrej
          simp at hrej
          simp [hrej.2]
    rw [hcond]
    simp only [Bool.false_eq_true, if_false]
    rw [ih p.1 hex1]

/-- At most one deployment of any given program id is ever counted as a
success along any sequence of deliveries from any state. -/
theorem countSuccess_le_one (pe : ProofEngine) (q : String) :
    ∀ (txs : List Transaction) (st : AppState), countSuccess pe q st txs ≤ 1 := by
  intro txs
  induction txs with
  | nil => intro st; exact Nat.zero_le 1
  | cons tx txs ih =>
    intro st
    unfold countSuccess deliverOutcome
    obtain ⟨p, hp⟩ := Option.isSome_iff_exists.mp (deliver_isSome pe st tx)
    rw [hp]
    dsimp only []
    cases hcond : (isDeploymentOf q tx && (p.2.code == 0)) with
    | false =>
      simp only [Bool.false_eq_true, if_false]
      calc 0 + countSuccess pe q p.1 txs ≤ countSuccess pe q p.1 txs := by omega
        _ ≤ 1 := ih p.1
    | true =>
      rw [Bool.and_eq_true] at hcond
      have hfacts := deliver_programs pe st tx q p hp
      have hex1 : p.1.programs.existsProgram q = true :=
        hfacts.2 (by simpa using hcond.2) hcond.1
      rw [countSuccess_zero pe q txs p.1 hex1]
      simp

/-- C7: a deployment whose program id already exists in the program store
fails `validate_transaction`, so `check_tx` and `deliver_tx` both reject it
with code 1 and the state (in particular the program store) is unchanged;
consequently at most one deployment per program id ever succeeds. -/
theorem c7_unique_deployment (pe : ProofEngine) (st : AppState) (i : String)
    (prog : Program) (vk : Nat) (fee : Option Transition)
    (hex : st.programs.existsProgram prog.id = true) :
    (validate_transaction pe st (.Deployment i prog vk fee)).isOk = false ∧
    (check_tx pe st (some (.Deployment i prog vk fee))).map CheckResponse.code = some 1 ∧
    (deliver_tx pe st (some (.Deployment i prog vk fee))).map (fun q => (q.1, q.2.code)) = some (st, 1) ∧
    (∀ txs, countSuccess pe prog.id st txs = 0) ∧
    (∀ (st0 : AppState) (txs : List Transaction), countSuccess pe prog.id st0 txs ≤ 1) :=
  ⟨validate_deployment_fails_of_exists pe st i prog vk fee hex,
   check_deployment_exists pe st i prog vk fee hex,
   deliver_deployment_exists pe st i prog vk fee hex,
   fun txs => countSuccess_zero pe prog.id txs st hex,
   fun st0 txs => countSuccess_le_one pe prog.id txs st0⟩

/-- Witness for C7 on `stW7`, which already holds the program `hello`: a new
deployment of `hello` is rejected by `check_tx`, and along a trace that tries
to deploy it twice no deployment succeeds. -/
theorem c7_unique_deployment_witness :
    (check_tx peOk stW7 (some txW7)).map CheckResponse.code = some 1 ∧
    countSuccess peOk "hello" stW7 [txW7, txW7] = 0 :=
  ⟨(c7_unique_deployment peOk stW7 "d-1" progHello 0 none rfl).2.1,
   (c7_unique_deployment peOk stW7 "d-1" progHello 0 none rfl).2.2.2.1 [txW7, txW7]⟩
